import Mathlib

set_option maxRecDepth 100000

/-!
# Verification of the spybot transaction-monitoring pipeline

Shallow embedding, in Lean 4, of the parts of the `snipe-dev/spybot`
repository that the specification's claims are about:

* `AddressExtractor` (`src/tracer/address-extractor.ts`)
* `TokenResolver` / `TokenCache` (`src/tracer/token-resolver.ts`, `token-cache.ts`)
* `OptimizedTracer.decodeFast` (pure core) (`src/tracer/optimized-tracer.ts`)
* `MessageBuilder.prepareMessageParams` (`src/message/message-builder.ts`)
* `Sql.updateWatchlist` row conversion (`src/database/sql-client.ts`)
* `TransactionProcessor` (`src/services/transaction-processor.ts`)
* `BlockReader.processTransaction` (`src/transport/block-reader.ts`)
* `MultinodePublicClient.executeParallel` (`src/transport/multinode-client.ts`)
* `TelegramQueue` send-queue worker (`src/telegram/telegram-queue.ts`)

Modelling conventions:

* Transaction calldata is modelled as the list of hexadecimal digits
  (nibbles, `Fin 16`) that follow the `"0x"` prefix of the JavaScript hex
  string, in lower case (RPC providers normalize calldata to lower-case
  hex).  A JavaScript string index `i` into the calldata corresponds to
  nibble index `i - 2`.
* Addresses, symbols and subscriber ids that the source handles as
  strings are modelled as Lean `String`s.
* JavaScript `Record` objects are modelled as association lists in key
  insertion order; assignment to an existing key keeps its position
  (`setRecord` below), matching JavaScript property-order semantics for
  non-index keys such as `"0x…"` addresses.
* `viem`'s `getAddress` / `isAddress` are embedded faithfully, including
  the EIP-55 checksum, with a full Keccak-256 implementation below.
* Asynchronous collaborators (the RPC network, the multicall responses,
  the Telegram API) are modelled as explicit inputs: each embedded
  operation takes the responses it would have received as arguments.
-/

/-! ## Keccak-256

Needed because the source checksums addresses with `viem`'s
`getAddress` (EIP-55), which upper-cases a hex letter of the address
exactly when the corresponding nibble of the Keccak-256 hash of the
lower-case address is at least 8.  Lanes are `Nat`s reduced mod `2^64`.
-/

namespace Keccak

/-- 64-bit left rotation on a `Nat` lane. -/
def rotl64 (x n : Nat) : Nat :=
  ((x <<< n) ||| (x >>> (64 - n))) % (2 ^ 64)

/-- Lane of the 5×5 state at column `x`, row `y` (flat index `x + 5*y`). -/
def lane (s : List Nat) (x y : Nat) : Nat :=
  s.getD (x % 5 + 5 * (y % 5)) 0

/-- θ step of Keccak-f[1600]. -/
def theta (s : List Nat) : List Nat :=
  let c := fun x => lane s x 0 ^^^ lane s x 1 ^^^ lane s x 2 ^^^ lane s x 3 ^^^ lane s x 4
  let d := fun x => c ((x + 4) % 5) ^^^ rotl64 (c ((x + 1) % 5)) 1
  (List.range 25).map fun i => s.getD i 0 ^^^ d (i % 5)

/-- ρ rotation offsets, flat index `x + 5*y`. -/
def rhoOffsets : List Nat :=
  [0, 1, 62, 28, 27] ++ [36, 44, 6, 55, 20] ++ [3, 10, 43, 25, 39] ++
    [41, 45, 15, 21, 8] ++ [18, 2, 61, 56, 14]

/-- Combined ρ and π steps: the output lane at `(X, Y)` is the input lane
at `(X + 3Y mod 5, X)` rotated by its ρ offset. -/
def rhoPi (s : List Nat) : List Nat :=
  (List.range 25).map fun i =>
    let X := i % 5
    let Y := i / 5
    let x := (X + 3 * Y) % 5
    let y := X
    rotl64 (lane s x y) (rhoOffsets.getD (x + 5 * y) 0)

/-- χ step. -/
def chi (s : List Nat) : List Nat :=
  (List.range 25).map fun i =>
    let x := i % 5
    let y := i / 5
    lane s x y ^^^ ((lane s (x + 1) y ^^^ (2 ^ 64 - 1)) &&& lane s (x + 2) y)

/-- Round constants of Keccak-f[1600]. -/
def roundConstants : List Nat :=
  [0x1, 0x8082, 0x800000000000808a, 0x8000000080008000] ++
    [0x808b, 0x80000001, 0x8000000080008081, 0x8000000000008009] ++
    [0x8a, 0x88, 0x80008009, 0x8000000a] ++
    [0x8000808b, 0x800000000000008b, 0x8000000000008089, 0x8000000000008003] ++
    [0x8000000000008002, 0x8000000000000080, 0x800a, 0x800000008000000a] ++
    [0x8000000080008081, 0x8000000000008080, 0x80000001, 0x8000000080008008]

/-- One round: θ, ρ, π, χ, ι. -/
def round (s : List Nat) (rc : Nat) : List Nat :=
  let s3 := chi (rhoPi (theta s))
  (List.range 25).map fun i => if i = 0 then s3.getD 0 0 ^^^ rc else s3.getD i 0

/-- The full Keccak-f[1600] permutation (24 rounds). -/
def keccakF (s : List Nat) : List Nat :=
  roundConstants.foldl round s

/-- Little-endian interpretation of 8 bytes as one lane. -/
def bytesToLane (bs : List Nat) : Nat :=
  bs.foldr (fun b acc => acc * 256 + b) 0

/-- Little-endian expansion of a lane into `n` bytes. -/
def laneToBytes : Nat → Nat → List Nat
  | _, 0 => []
  | v, n + 1 => v % 256 :: laneToBytes (v / 256) n

/-- Splits a list into chunks of `n` elements, structurally recursive on a
fuel bound so that it reduces inside the kernel. -/
def chunksAux (n : Nat) : Nat → List α → List (List α)
  | 0, _ => []
  | _, [] => []
  | fuel + 1, a :: t => (a :: t.take (n - 1)) :: chunksAux n fuel (t.drop (n - 1))

/-- Splits a list into chunks of `n` elements (used with `n = 8` and
`n = 136`; the last chunk may be shorter). -/
def chunks (n : Nat) (l : List α) : List (List α) :=
  chunksAux n l.length l

/-- Multi-rate padding `10*1` for rate 136 bytes (Keccak-256). -/
def pad136 (msg : List Nat) : List Nat :=
  let padLen := 136 - msg.length % 136
  if padLen = 1 then msg ++ [0x81]
  else msg ++ [0x01] ++ List.replicate (padLen - 2) 0 ++ [0x80]

/-- Absorbs one 136-byte block into the state and permutes. -/
def absorbBlock (s : List Nat) (block : List Nat) : List Nat :=
  let blockLanes := (chunks 8 block).map bytesToLane
  keccakF <| (List.range 25).map fun i =>
    if i < 17 then s.getD i 0 ^^^ blockLanes.getD i 0 else s.getD i 0

/-- Keccak-256 of a byte string: 32-byte digest. -/
def keccak256 (msg : List Nat) : List Nat :=
  let s := (chunks 136 (pad136 msg)).foldl absorbBlock (List.replicate 25 0)
  ((s.take 4).map (laneToBytes · 8)).flatten

end Keccak

/-! ## Hex strings and EIP-55 checksummed addresses

Calldata is modelled as a list of hex digits (`Hexit := Fin 16`): the
characters of the JavaScript hex string after its `"0x"` prefix, lower
case.  `viem`'s `getAddress` produces the EIP-55 checksummed string;
`isAddress` (strict) accepts a syntactically valid address that is either
all lower-case or exactly checksummed.
-/

/-- One hexadecimal digit of a calldata / address hex string. -/
abbrev Hexit := Fin 16

/-- Lower-case character of a hex digit. -/
def hexCharLower (h : Hexit) : Char :=
  if h.val < 10 then Char.ofNat (48 + h.val) else Char.ofNat (87 + h.val)

/-- Upper-case character of a hex digit. -/
def hexCharUpper (h : Hexit) : Char :=
  if h.val < 10 then Char.ofNat (48 + h.val) else Char.ofNat (55 + h.val)

/-- Hex digit denoted by a character, if any (both cases accepted). -/
def charToHexit (c : Char) : Option Hexit :=
  if h : 48 ≤ c.toNat ∧ c.toNat ≤ 57 then some ⟨c.toNat - 48, by omega⟩
  else if h : 97 ≤ c.toNat ∧ c.toNat ≤ 102 then some ⟨c.toNat - 87, by omega⟩
  else if h : 65 ≤ c.toNat ∧ c.toNat ≤ 70 then some ⟨c.toNat - 55, by omega⟩
  else none

/-- Parses a list of characters as hex digits. -/
def parseHexits : List Char → Option (List Hexit)
  | [] => some []
  | c :: t => do pure ((← charToHexit c) :: (← parseHexits t))

/-- The `"0x…"` lower-case hex string of a nibble list (what
`getAddress(a).toLowerCase()` yields for an address). -/
def lowerHexString (l : List Hexit) : String :=
  "0x" ++ String.mk (l.map hexCharLower)

/-- EIP-55 checksummed `"0x…"` string of a 40-nibble address, as produced
by `viem`'s `getAddress`: hex letter `i` is upper-cased exactly when
nibble `i` of the Keccak-256 hash of the lower-case 40-character address
is at least 8. -/
def checksumAddress (a : List Hexit) : String :=
  let hash := Keccak.keccak256 (a.map fun h => (hexCharLower h).toNat)
  let hashNibble := fun (i : Nat) =>
    if i % 2 = 0 then hash.getD (i / 2) 0 / 16 else hash.getD (i / 2) 0 % 16
  let chars := (List.range a.length).map fun i =>
    let h := a.getD i 0
    if h.val < 10 then hexCharLower h
    else if hashNibble i ≥ 8 then hexCharUpper h else hexCharLower h
  "0x" ++ String.mk chars

/-- `viem`'s strict `isAddress` on a string: `0x` followed by 40 hex
characters, and either all lower-case or exactly EIP-55 checksummed. -/
def isAddressStr (s : String) : Bool :=
  match s.toList with
  | '0' :: 'x' :: rest =>
    match parseHexits rest with
    | some nibbles =>
      nibbles.length == 40 &&
        (s == lowerHexString nibbles || s == checksumAddress nibbles)
    | none => false
  | _ => false

/-! ## JavaScript string primitives

Kernel-computable implementations of `toLowerCase`, `trim` and
`split` on the ASCII strings the pipeline handles (addresses, symbols,
`"{chat_id}@{bot_id}"` subscriber ids). -/

/-- ASCII lower-casing of one character (`toLowerCase`). -/
def jsCharLower (c : Char) : Char :=
  if 'A' ≤ c ∧ c ≤ 'Z' then Char.ofNat (c.toNat + 32) else c

/-- JavaScript `s.toLowerCase()` on ASCII strings. -/
def jsToLower (s : String) : String :=
  String.mk (s.toList.map jsCharLower)

/-- Whitespace recognised by `trim` (the common ASCII cases). -/
def jsIsWhitespace (c : Char) : Bool :=
  c = ' ' ∨ c = '\t' ∨ c = '\n' ∨ c = '\r'

/-- Drops leading whitespace. -/
def trimLeftList : List Char → List Char
  | [] => []
  | c :: t => if jsIsWhitespace c then trimLeftList t else c :: t

/-- JavaScript `s.trim()`. -/
def jsTrim (s : String) : String :=
  String.mk ((trimLeftList (trimLeftList s.toList).reverse).reverse)

/-- Splitting on one separator character (`s.split("@")`). -/
def splitOnChar (sep : Char) : List Char → List (List Char)
  | [] => [[]]
  | c :: t =>
    let rest := splitOnChar sep t
    if c = sep then [] :: rest
    else (c :: rest.headD []) :: rest.tail

/-- JavaScript `s.split(sep)` for a one-character separator. -/
def jsSplit (s : String) (sep : Char) : List String :=
  (splitOnChar sep s.toList).map String.mk

/-! ## JavaScript `Record` objects and `Set` deduplication -/

/-- Assignment `m[k] = v` on a JavaScript object: an existing key keeps
its position, a new key is appended. -/
def setRecord (m : List (String × α)) (k : String) (v : α) : List (String × α) :=
  match m with
  | [] => [(k, v)]
  | (k', v') :: t => if k' = k then (k, v) :: t else (k', v') :: setRecord t k v

/-- Lookup `m[k]` on a JavaScript object (first match; objects built by
`setRecord` have unique keys). -/
def getRecord : List (String × α) → String → Option α
  | [], _ => none
  | (k', v') :: t, k => if k' = k then some v' else getRecord t k

/-- `[...new Set(l)]`: deduplication keeping first occurrences, in order. -/
def dedupAux [DecidableEq α] : List α → List α → List α
  | _, [] => []
  | seen, a :: t => if a ∈ seen then dedupAux seen t else a :: dedupAux (a :: seen) t

/-- `[...new Set(l)]` on a list. -/
def jsSetDedup [DecidableEq α] (l : List α) : List α :=
  dedupAux [] l

/-! ## `AddressExtractor` (`src/tracer/address-extractor.ts`) -/

/-- The nibbles of the ERC20 `transfer(address,uint256)` selector
`a9059cbb`. -/
def transferSelector : List Hexit :=
  [0xa, 0x9, 0x0, 0x5, 0x9, 0xc, 0xb, 0xb]

/-- One pass of the 32-byte chunk scan of
`extractAddressesFromCalldata`: for each successive 64-nibble chunk whose
first 24 nibbles are zero, the trailing 40 nibbles form a candidate
address, pushed lower-cased (`getAddress(a).toLowerCase()` is the
lower-case hex string of the nibbles). -/
def scanChunks (data : List Hexit) : List String :=
  (Keccak.chunks 64 data).foldl
    (fun addresses chunk =>
      if chunk.take 24 = List.replicate 24 (0 : Hexit) ∧ (chunk.drop 24).length = 40 then
        addresses ++ [lowerHexString (chunk.drop 24)]
      else addresses)
    []

/-- `AddressExtractor.extractAddressesFromCalldata`: scans the calldata in
64-nibble chunks at the two origin offsets 0 and 8 (JavaScript string
offsets 2 and 10, i.e. after `"0x"` and after the 4-byte selector) and
returns the unique lower-cased candidate addresses.  Calldata shorter
than 74 nibbles (JavaScript `_data.length < 76`) yields `[]`. -/
def extractAddressesFromCalldata (data : List Hexit) : List String :=
  if data.length < 74 then []
  else jsSetDedup (scanChunks data ++ scanChunks (data.drop 8))

/-- `AddressExtractor.extractTransferRecipient`: if the calldata starts
with `0xa9059cbb` and has at least 72 nibbles (JavaScript
`data.length >= 74`), the trailing 40 nibbles of the first 32-byte
argument (JavaScript `data.slice(34, 74)`) are returned checksum-cased
(`getAddress`); otherwise `null`.  A 40-nibble lower-case hex candidate
always passes `isAddress`. -/
def extractTransferRecipient (data : List Hexit) : Option String :=
  if data.take 8 = transferSelector ∧ 74 ≤ data.length + 2 then
    some (checksumAddress ((data.drop 32).take 40))
  else none

/-! ## `TokenCache` (`src/tracer/token-cache.ts`)

The SQLite table `tokens(address PK, symbol, decimals)` is modelled as an
association list keyed by lower-cased address; `INSERT OR IGNORE` keeps
an existing row. -/

/-- Token metadata record (`symbol()` and `decimals()` of a contract). -/
structure TokenMetadata where
  symbol : String
  decimals : Nat
  deriving DecidableEq, Repr

/-- The token cache contents. -/
abbrev TokenCache := List (String × TokenMetadata)

/-- `TokenCache.getToken`: lookup by lower-cased address. -/
def getToken (cache : TokenCache) (address : String) : Option TokenMetadata :=
  getRecord cache (jsToLower address)

/-- One iteration of the `TokenCache.getTokens` loop. -/
def getTokensStep (cache : TokenCache) (result : List (String × TokenMetadata))
    (address : String) : List (String × TokenMetadata) :=
  match getToken cache address with
  | some token => setRecord result (jsToLower address) token
  | none => result

/-- `TokenCache.getTokens`: bulk lookup, keyed by lower-cased address. -/
def getTokens (cache : TokenCache) (addresses : List String) : List (String × TokenMetadata) :=
  addresses.foldl (getTokensStep cache) []

/-- `TokenCache.addToken`: `INSERT OR IGNORE` keyed by lower-cased
address — an address already cached keeps its original row. -/
def addToken (cache : TokenCache) (address symbol : String) (decimals : Nat) : TokenCache :=
  if (getRecord cache (jsToLower address)).isSome then cache
  else cache ++ [(jsToLower address, ⟨symbol, decimals⟩)]

/-! ## `TokenResolver` (`src/tracer/token-resolver.ts`)

The multicall responses are an explicit input: `net address` is the
ABI-decoded `(symbol, decimals)` pair for `address` when both the
`symbol()` and `decimals()` sub-calls succeeded and decoded, and `none`
when either sub-call failed or a decode error occurred. -/

/-- An `address => symbol` map (`TokenMap` in the source). -/
abbrev TokenMap := List (String × String)

/-- One iteration of the `TokenResolver.fetchTokensFromNetwork` loop:
keeps a pair only when its trimmed symbol is non-empty and its decimals
are positive, storing the trimmed symbol keyed by the original
(non-lower-cased) address. -/
def fetchStep (net : String → Option (String × Nat))
    (result : List (String × TokenMetadata)) (address : String) :
    List (String × TokenMetadata) :=
  match net address with
  | none => result
  | some (symbol, decimalsValue) =>
    let symbolTrimmed := jsTrim symbol
    let decimals := decimalsValue
    if symbolTrimmed ≠ "" ∧ decimals > 0 then
      setRecord result address ⟨symbolTrimmed, decimals⟩
    else result

/-- `TokenResolver.fetchTokensFromNetwork` over the decoded multicall
responses `net`. -/
def fetchTokensFromNetwork (net : String → Option (String × Nat))
    (addresses : List String) : List (String × TokenMetadata) :=
  addresses.foldl (fetchStep net) []

/-- One iteration of the first `sortTokens` loop (non-base tokens). -/
def sortNonBaseStep (baseTokens : List String) (sorted : TokenMap)
    (p : String × String) : TokenMap :=
  if ¬ baseTokens.contains p.2 then setRecord sorted p.1 p.2 else sorted

/-- One iteration of the second `sortTokens` loop (base tokens). -/
def sortBaseStep (baseTokens : List String) (sorted : TokenMap)
    (p : String × String) : TokenMap :=
  if baseTokens.contains p.2 then setRecord sorted p.1 p.2 else sorted

/-- `TokenResolver.sortTokens`: re-inserts all non-base tokens first,
then all base tokens.  (The source iterates `Object.keys(tokens)` and
reads `tokens[address]`; `TokenMap`s built by `setRecord` have unique
keys, so iterating entries is the same.) -/
def sortTokens (baseTokens : List String) (tokens : TokenMap) : TokenMap :=
  tokens.foldl (sortBaseStep baseTokens)
    (tokens.foldl (sortNonBaseStep baseTokens) [])

/-- One iteration of the cache-hit/miss partition loop of
`TokenResolver.resolveWithNetwork`. -/
def splitStep (cachedTokens : List (String × TokenMetadata))
    (acc : TokenMap × List String) (address : String) : TokenMap × List String :=
  let lowerAddress := jsToLower address
  match getRecord cachedTokens lowerAddress with
  | some token => (setRecord acc.1 lowerAddress token.symbol, acc.2)
  | none => (acc.1, acc.2 ++ [address])

/-- One iteration of the fetched-token loop of
`TokenResolver.resolveWithNetwork`. -/
def resolveFetchStep (fetched : List (String × TokenMetadata))
    (acc : TokenMap × TokenCache) (address : String) : TokenMap × TokenCache :=
  let lowerAddress := jsToLower address
  match getRecord fetched address with
  | some tokenData =>
    if tokenData.symbol ≠ "" ∧ tokenData.decimals > 0 then
      (setRecord acc.1 lowerAddress tokenData.symbol,
       addToken acc.2 address tokenData.symbol tokenData.decimals)
    else acc
  | none => acc

/-- `TokenResolver.resolveWithNetwork`: splits the inputs into cache hits
and misses, fetches the misses over the network, keeps only entries with
truthy symbol and positive decimals (caching them), and returns the
sorted `address => symbol` map together with the updated cache. -/
def resolveWithNetwork (baseTokens : List String) (cache : TokenCache)
    (net : String → Option (String × Nat)) (addresses : List String) :
    TokenMap × TokenCache :=
  if addresses.isEmpty then ([], cache)
  else
    let cachedTokens := getTokens cache addresses
    let start := addresses.foldl (splitStep cachedTokens) ([], [])
    let result := start.1
    let toFetch := start.2
    let after :=
      if toFetch.length > 0 then
        let fetched := fetchTokensFromNetwork net toFetch
        toFetch.foldl (resolveFetchStep fetched) (result, cache)
      else (result, cache)
    (sortTokens baseTokens after.1, after.2)

/-- The `Nat` denoted by a big-endian nibble list (ABI `uint256` decode of
a 32-byte word). -/
def nibblesToNat (l : List Hexit) : Nat :=
  l.foldl (fun acc h => acc * 16 + h.val) 0

/-- `x.toFixed(2)` on the exact non-negative rational `value / 10^decimals`:
round to the nearest hundredth, ties away from zero, rendered with
exactly two fraction digits.  The source computes the quotient in binary
floating point; on the inputs used in this development (in particular
`100·10^18 / 10^18`) the floating-point computation is exact, so the
exact-rational model coincides with it. -/
def toFixed2 (value divisor : Nat) : String :=
  let hundredths := (value * 200 + divisor) / (2 * divisor)
  let frac := hundredths % 100
  toString (hundredths / 100) ++ "." ++
    (if frac < 10 then "0" ++ toString frac else toString frac)

/-- `TokenResolver._decodeTransferAmount`: for calldata starting with
`0xa9059cbb` of at least 136 nibbles (JavaScript `data.length >= 138`),
decodes the second 32-byte argument (JavaScript `data.slice(74, 138)`) as
a `uint256` and formats `value / 10^decimals` with two fraction
digits. -/
def decodeTransferAmountWith (data : List Hexit) (decimals : Nat) : Option String :=
  if data.take 8 = transferSelector ∧ 138 ≤ data.length + 2 then
    some (toFixed2 (nibblesToNat ((data.drop 72).take 64)) (10 ^ decimals))
  else none

/-- `TokenResolver.decodeTransferAmount`: decodes using the cached
decimals of the token; `null` when the token is not cached. -/
def decodeTransferAmount (cache : TokenCache) (data : List Hexit)
    (tokenAddress : String) : Option String :=
  match getToken cache tokenAddress with
  | none => none
  | some tokenData => decodeTransferAmountWith data tokenData.decimals

/-! ## `TracerResult` and `OptimizedTracer.decodeFast`
(`src/tracer/types.ts`, `src/tracer/optimized-tracer.ts`)

`decodeFast` is embedded as its pure core: the responses of its
asynchronous collaborators are explicit inputs — `pairsFound` is the
list returned by `extractAddressesFromPairs` (the decoded `token0()` /
`token1()` multicall answers), `net` the token-metadata multicall
answers, and `balanceData` the formatted result of `getCurrentBalance`
(floating-point balance rendering is outside the model). -/

/-- `TracerResult` (`src/tracer/types.ts`).  `blockNumber` is
`bigint | 'mempool'` in the source; `none` stands for `'mempool'`. -/
structure TracerResult where
  status : Option Bool
  interact : TokenMap
  logs : Option Nat
  blockNumber : Option Int
  contractAddress : Option String
  pnl : String
  bal : String
  chn : String
  amount : Option String
  deriving DecidableEq, Repr

/-- `bal` / `chn` pair returned by `OptimizedTracer.getCurrentBalance`. -/
structure BalanceData where
  bal : String
  chn : String
  deriving DecidableEq, Repr

/-- Pure core of `OptimizedTracer.decodeFast`: extracts candidate
addresses from the calldata, appends the (lower-cased) transaction
target when it passes `isAddress`, appends the pair-underlying tokens,
de-duplicates, resolves tokens, and decodes the transfer amount when
exactly one token resolved and the calldata starts with `0xa9059cbb`.
Returns the `TracerResult` and the updated token cache.  (The source's
`tx.blockNumber || 'mempool'` maps `0n` to `'mempool'`.) -/
def decodeFast (baseTokens : List String) (cache : TokenCache)
    (net : String → Option (String × Nat)) (pairsFound : List String)
    (balanceData : BalanceData) (tx_to : Option String) (tx_data : List Hexit)
    (tx_blockNumber : Option Int) : TracerResult × TokenCache :=
  let extracted := extractAddressesFromCalldata tx_data
  let addresses := extracted ++
    (match tx_to with
     | some t => if isAddressStr t then [jsToLower t] else []
     | none => [])
  let addresses := addresses ++ pairsFound
  let uniqueAddresses := jsSetDedup addresses
  let resolved := resolveWithNetwork baseTokens cache net uniqueAddresses
  let tokens := resolved.1
  let amount :=
    if tokens.length = 1 ∧ tx_data.take 8 = transferSelector then
      decodeTransferAmount resolved.2 tx_data (tokens.headD ("", "")).1
    else none
  ({ status := none, interact := tokens, logs := none,
     blockNumber := match tx_blockNumber with
                    | some b => if b = 0 then none else some b
                    | none => none,
     contractAddress := none, pnl := "0.0",
     bal := balanceData.bal, chn := balanceData.chn, amount := amount },
   resolved.2)

/-! ## `MessageBuilder.prepareMessageParams`
(`src/message/message-builder.ts`) -/

/-- Result of `MessageBuilder.prepareMessageParams`. -/
structure MessageParams where
  interactions : String
  icon : String
  fromAddress : String
  toAddress : String
  tokenForButton : Option String
  isContractAddress : Bool
  deriving DecidableEq, Repr

/-- `MessageBuilder.checkStatus`: status glyph prefix. -/
def checkStatus (status : Option Bool) : String :=
  match status with
  | none => ""
  | some s => if s then "✅" else "❌"

/-- JavaScript `s.slice(0, -n)`: drops the last `n` characters. -/
def jsDropLast (s : String) (n : Nat) : String :=
  String.mk (s.toList.take (s.toList.length - n))

/-- `MessageBuilder.prepareMessageParams`.  Inputs mirror the source:
the tracked `address`, the transaction's `to` / `from` / `value`, the
decoded `TracerResult` and the selector string (`tx.data.slice(0, 10)`);
`chart` and `explorer` come from the builder configuration and
`baseTokens` from `src/system/base-tokens.ts` (its contents are not part
of the sources, so the set is a parameter). -/
def prepareMessageParams (chart explorer : String) (baseTokens : List String)
    (address : String) (tx_to : Option String) (tx_from : String)
    (tx_value : Nat) (decoded : TracerResult) (selector : String) :
    MessageParams :=
  let interact := decoded.interact
  let tokens := interact.map (·.1)
  let icon := if tx_to = some address then "↘️:  " else "↖️:  "
  let fromA := tx_from
  let toA := tx_to.getD address
  let built :=
    if tokens.length > 0 then
      let body := (interact.take 10).foldl
        (fun (acc : String × Option String) p =>
          let token := p.1
          let symbol := p.2
          if ¬ baseTokens.contains symbol then
            (acc.1 ++ "<a href=\"" ++ chart ++ token ++ "?maker=" ++ tx_from ++
               "\"><b>[" ++ symbol ++ "]</b></a>" ++
               "<a href=\"" ++ explorer ++ "token/" ++ token ++
               "\"><b>[➥]</b></a> | ",
             some token)
          else
            (acc.1 ++ "<a href=\"" ++ chart ++ token ++ "\">[" ++ symbol ++ "]</a> | ",
             acc.2))
        ("<code>Interact: </code>", none)
      (jsDropLast body.1 2 ++ "\n", body.2)
    else ("", (none : Option String))
  let interactions := built.1
  let tokenForButton := built.2
  let transfer := tokens.length = 1 ∧ selector = "0xa9059cbb"
  let icon :=
    if transfer then
      if address = fromA then "💰➡️:  " else "➡️💰:  "
    else icon
  let interactions :=
    if transfer then
      match decoded.amount with
      | some amt =>
        if amt ≠ "" then jsDropLast interactions 1 ++ "→ " ++ amt ++ "\n"
        else interactions
      | none => interactions
    else interactions
  let icon :=
    if tokens.length > 1 then
      if tx_value = 0 then "<b>⚪️ Sell</b>:  " else "<b>🟢 Buy</b>:  "
    else icon
  let icon :=
    if tokens.length > 1 ∧ decoded.status = some false then "<b>🟢 Buy</b>:  "
    else icon
  let isContractAddress :=
    match decoded.contractAddress with
    | some ca => ca ≠ "" ∧ toA = ca
    | none => false
  { interactions := interactions
    icon := checkStatus decoded.status ++ icon
    fromAddress := fromA
    toAddress := toA
    tokenForButton := tokenForButton
    isContractAddress := isContractAddress }

/-! ## `Sql.updateWatchlist` (`src/database/sql-client.ts`)

Conversion of the `watchlist` table rows (with `blocked = 0`) into the
in-memory cache `{address: {chat_id@bot_id: entry}}`.  Every entry is
initialized with `tx_in: false, tx_out: true`. -/

/-- A watchlist cache entry (`WatchlistEntry` in `src/database/types.ts`). -/
structure WatchlistEntry where
  name : String
  tx_in : Bool
  tx_out : Bool
  deriving DecidableEq, Repr

/-- A row of the SQL `watchlist` table as read by `updateWatchlist`. -/
structure WatchlistRow where
  address : String
  name : String
  chat_id : Int
  bot_id : String
  deriving DecidableEq, Repr

/-- The in-memory watchlist: address (lower-cased) to subscribers. -/
abbrev Watchlist := List (String × List (String × WatchlistEntry))

/-- Body of `Sql.updateWatchlist`: builds the watchlist cache from the
non-blocked rows, keying the outer map by lower-cased address and the
inner map by `"{chat_id}@{bot_id}"`, and setting `tx_in: false,
tx_out: true` on every entry. -/
def updateWatchlist (rows : List WatchlistRow) : Watchlist :=
  rows.foldl
    (fun newWatchlist row =>
      let address := jsToLower row.address
      let userId := toString row.chat_id ++ "@" ++ row.bot_id
      let inner := (getRecord newWatchlist address).getD []
      setRecord newWatchlist address
        (setRecord inner userId { name := row.name, tx_in := false, tx_out := true }))
    []

/-! ## `TransactionProcessor` (`src/services/transaction-processor.ts`)

The Telegram queue is an explicit input: `sendApi id` is the message id
that `queue.sendMessage` resolves for subscriber `id` (`0` for a falsy
`messageId`).  `massSend` additionally records which subscribers a send
was performed for, and `massUpdate` returns the list of
`(subscriber id, message id)` pairs its `editMessage` calls target. -/

/-- The fields of a normalized transaction (`TransactionData` in
`src/transport/types.ts`) read by the embedded operations.  `data` is
the calldata nibble list; `fromAddr` is the source's `from`. -/
structure TransactionData where
  hash : String
  blockNumber : Option Int
  toAddr : Option String
  fromAddr : String
  value : Nat
  data : List Hexit
  deriving DecidableEq, Repr

/-- The selector string `tx.data.slice(0, 10)` of a transaction. -/
def selectorOf (data : List Hexit) : String :=
  "0x" ++ String.mk ((data.take 8).map hexCharLower)

/-- Result of `TransactionProcessor.alreadySent`. -/
structure AlreadySentResult where
  dup : Bool
  sent : List String
  deriving DecidableEq, Repr

/-- `TransactionProcessor.alreadySent`: checks and records the
`"{address}:{hash}"` key in the insertion-ordered dedup set, evicting
the oldest entry (`values().next().value`, deleted only when truthy,
i.e. non-empty) once the set holds more than 10 000 keys. -/
def alreadySent (sent : List String) (address hash : String) : AlreadySentResult :=
  let key := address ++ ":" ++ hash
  if key ∈ sent then ⟨true, sent⟩
  else
    let inserted := sent ++ [key]
    if inserted.length > 10000 then
      let first := inserted.headD ""
      if first ≠ "" then ⟨false, inserted.tail⟩ else ⟨false, inserted⟩
    else ⟨false, inserted⟩

/-- `TransactionProcessor.getWatchers`: watchers of an address whose bot
instance is active. -/
def getWatchers (bots : List String) (watchlist : Watchlist) (address : String) :
    List (String × WatchlistEntry) :=
  ((getRecord watchlist address).getD []).foldl
    (fun result p =>
      let botId := (jsSplit p.1 '@').getD 1 ""
      if bots.contains botId then setRecord result p.1 p.2 else result)
    []

/-- Result of `TransactionProcessor.massSend`: the
`{subscriber id → message id}` map of accepted deliveries, and the
subscribers a `sendMessage` was actually performed for. -/
structure MassSendResult where
  sent : List (String × Nat)
  attempts : List String
  deriving DecidableEq, Repr

/-- One iteration of the `TransactionProcessor.massSend` loop: applies
the direction gate (`tx_in` for incoming, `tx_out` for outgoing), skips
inactive bots, performs the send and records the resolved message id
when truthy. -/
def massSendStep (bots : List String) (sendApi : String → Nat) (txOutgoing : Bool)
    (acc : MassSendResult) (p : String × WatchlistEntry) : MassSendResult :=
  let id := p.1
  let botId := (jsSplit id '@').getD 1 ""
  let watcher := p.2
  if ¬ txOutgoing ∧ ¬ watcher.tx_in then acc
  else if txOutgoing ∧ ¬ watcher.tx_out then acc
  else if ¬ bots.contains botId then acc
  else
    let messageId := sendApi id
    { sent := if messageId ≠ 0 then setRecord acc.sent id messageId else acc.sent
      attempts := acc.attempts ++ [id] }

/-- `TransactionProcessor.massSend`: runs the send loop over the
watchers in order. -/
def massSend (bots : List String) (sendApi : String → Nat)
    (watchers : List (String × WatchlistEntry)) (txOutgoing : Bool) :
    MassSendResult :=
  watchers.foldl (massSendStep bots sendApi txOutgoing) ⟨[], []⟩

/-- One iteration of the `TransactionProcessor.massUpdate` loop:
re-applies the direction gate and the bot check and issues
`editMessage(chatId, sentMap[id], …)`.  (For an id absent from
`watchers` the source would throw accessing `watcher.tx_in`; the ids
always come from a `massSend` over the same `watchers`.) -/
def massUpdateStep (bots : List String) (watchers : List (String × WatchlistEntry))
    (sentMap : List (String × Nat)) (txOutgoing : Bool)
    (edits : List (String × Nat)) (p : String × Nat) : List (String × Nat) :=
  let id := p.1
  let botId := (jsSplit id '@').getD 1 ""
  match getRecord watchers id with
  | none => edits
  | some watcher =>
    if ¬ txOutgoing ∧ ¬ watcher.tx_in then edits
    else if txOutgoing ∧ ¬ watcher.tx_out then edits
    else if ¬ bots.contains botId then edits
    else edits ++ [(id, (getRecord sentMap id).getD 0)]

/-- `TransactionProcessor.massUpdate`: for each id in the sent map, the
edit targeting `(subscriber id, sentMap[id])`. -/
def massUpdate (bots : List String) (watchers : List (String × WatchlistEntry))
    (sentMap : List (String × Nat)) (txOutgoing : Bool) : List (String × Nat) :=
  sentMap.foldl (massUpdateStep bots watchers sentMap txOutgoing) []

/-- The environment of `TransactionProcessor.process`: the responses of
its asynchronous collaborators.  `signature` is the resolved selector
signature, `fullResult` the `decodeFull` outcome (whose internals the
claims do not depend on), `build` the message text produced by
`MessageBuilder.build` for a given trace. -/
structure ProcessEnv where
  bots : List String
  sendApi : String → Nat
  baseTokens : List String
  cache : TokenCache
  net : String → Option (String × Nat)
  pairsFound : List String
  balanceData : BalanceData
  fullResult : TracerResult

/-- Observable outcome of one `TransactionProcessor.process` call. -/
structure ProcessResult where
  sent : List String
  sendResult : MassSendResult
  edits : List (String × Nat)
  fast : Option TracerResult
  deriving Repr

/-- `TransactionProcessor.process`: dedup check, watcher snapshot,
native-dust short-circuit (`selector === "0x"` and value below 0.01
ether, i.e. below `10^16` wei — exact for integer wei values), fast
decode, mass send, and mass update with the full decode. -/
def process (env : ProcessEnv) (watchlist : Watchlist) (sent : List String)
    (address : String) (tx : TransactionData) : ProcessResult :=
  let dedup := alreadySent sent address tx.hash
  if dedup.dup then ⟨dedup.sent, ⟨[], []⟩, [], none⟩
  else
    let watchers := getWatchers env.bots watchlist address
    if watchers.length = 0 then ⟨dedup.sent, ⟨[], []⟩, [], none⟩
    else
      let selector := selectorOf tx.data
      if selector = "0x" ∧ tx.value < 10 ^ 16 then ⟨dedup.sent, ⟨[], []⟩, [], none⟩
      else
        let fast := (decodeFast env.baseTokens env.cache env.net env.pairsFound
          env.balanceData tx.toAddr tx.data tx.blockNumber).1
        let txOutgoing := address = tx.fromAddr
        let sendResult := massSend env.bots env.sendApi watchers txOutgoing
        let edits := massUpdate env.bots watchers sendResult.sent txOutgoing
        ⟨dedup.sent, sendResult, edits, some fast⟩

/-- The routing of `TransactionProcessor.handle`: the watched addresses
`process` is invoked for, in order — `tx.from`, `tx.to`, the ERC20
transfer recipient, then every calldata-extracted address, each kept
when it is a key of the watchlist (JavaScript `in`). -/
def matchedAddresses (watchlist : Watchlist) (tx : TransactionData) : List String :=
  (if (getRecord watchlist tx.fromAddr).isSome then [tx.fromAddr] else []) ++
  (match tx.toAddr with
   | some t => if (getRecord watchlist t).isSome then [t] else []
   | none => []) ++
  (match extractTransferRecipient tx.data with
   | some r => if (getRecord watchlist r).isSome then [r] else []
   | none => []) ++
  (extractAddressesFromCalldata tx.data).filter
    (fun a => (getRecord watchlist a).isSome)

/-! ## `BlockReader.processTransaction` (`src/transport/block-reader.ts`) -/

/-- Result of one `BlockReader.processTransaction` step. -/
structure ProcTxResult where
  emitted : Bool
  window : List String
  deriving DecidableEq, Repr

/-- `BlockReader.processTransaction`: emits the transaction unless its
hash is in the dedup window; after emission, once the window exceeds
`TX_WINDOW = 10000` entries, deletes the first
`Math.floor(TX_WINDOW / 2) = 5000` entries in insertion order. -/
def processTransaction (window : List String) (hash : String) : ProcTxResult :=
  if hash ∈ window then ⟨false, window⟩
  else
    let grown := window ++ [hash]
    if grown.length > 10000 then ⟨true, grown.drop 5000⟩ else ⟨true, grown⟩

/-- Runs `processTransaction` over a stream of hashes, collecting the
emitted ones. -/
def runReader (window : List String) : List String → List String × List String
  | [] => (window, [])
  | h :: t =>
    let step := processTransaction window h
    let rest := runReader step.window t
    (rest.1, (if step.emitted then [h] else []) ++ rest.2)

/-! ## `MultinodePublicClient.executeParallel`
(`src/transport/multinode-client.ts`) -/

/-- A JavaScript RPC result value, rich enough for the consensus
strategies' `Array.isArray` and `typeof … === 'bigint'` guards. -/
inductive RpcValue where
  | bigint (n : Int)
  | array (l : List RpcValue)
  | other

/-- The settled outcome of one endpoint's request: `err` when the method
threw (including timeouts), `ok r` when it fulfilled with `r`
(`ok none` when it fulfilled with `null`). -/
inductive NodeOutcome where
  | err
  | ok (result : Option RpcValue)

/-- The three consensus strategies. -/
inductive ConsensusStrategy where
  | firstSuccess
  | mostLogs
  | highestBlock
  deriving DecidableEq, Repr

/-- JavaScript `Array.prototype.reduce` without an initial value. -/
def jsReduce1 (f : α → α → α) : List α → Option α
  | [] => none
  | a :: t => some (t.foldl f a)

/-- `MultinodePublicClient.applyConsensusStrategy`. -/
def applyConsensusStrategy (results : List RpcValue)
    (strategy : ConsensusStrategy) : RpcValue :=
  match strategy with
  | .firstSuccess => results.headD .other
  | .mostLogs =>
    match results.headD .other with
    | .array first =>
      (jsReduce1
        (fun prev current =>
          match current with
          | .array c =>
            if c.length > (match prev with | .array p => p.length | _ => 0) then current
            else prev
          | _ => prev)
        results).getD (.array first)
    | firstResult => firstResult
  | .highestBlock =>
    match results.headD .other with
    | .bigint first =>
      (jsReduce1
        (fun prev current =>
          match current with
          | .bigint c =>
            if c > (match prev with | .bigint p => p | _ => 0) then current
            else prev
          | _ => prev)
        results).getD (.bigint first)
    | firstResult => firstResult

/-- `MultinodePublicClient.executeParallel`: runs the method on every
node (each settles as a `NodeOutcome`), keeps the outcomes that
fulfilled with a non-`null` result, throws
`"[RPC FAIL] All nodes failed for method: …"` when none remain, and
otherwise reduces them with the consensus strategy. -/
def executeParallel (method : String) (outcomes : List NodeOutcome)
    (strategy : ConsensusStrategy) : Except String RpcValue :=
  let successful := outcomes.filterMap
    (fun o => match o with | .ok (some v) => some v | _ => none)
  if successful.length = 0 then
    .error ("[RPC FAIL] All nodes failed for method: " ++ method)
  else
    .ok (applyConsensusStrategy successful strategy)

/-! ## `TelegramQueue` send-queue worker
(`src/telegram/telegram-queue.ts`)

One iteration of the `processSendQueue` loop is embedded as a step
function on the queue, taking the Telegram API response for the head
item as input.  Futures are modelled as emitted resolution / rejection
events keyed by the item's internal `messageId`. -/

/-- A pending send operation (`SendQueueItem` in
`src/telegram/types.ts`); `messageId` is the internal id keying the
pending promise. -/
structure SendQueueItem where
  chatId : String
  text : String
  messageId : String
  deriving DecidableEq, Repr

/-- A Telegram API error: a `GrammyError` with its `error_code`,
`description` and optional `parameters.retry_after`, or any other
thrown value. -/
inductive ApiError where
  | grammy (error_code : Nat) (description : String) (retry_after : Option Nat)
  | unknown
  deriving DecidableEq, Repr

/-- The Telegram API response for one attempt. -/
inductive ApiResponse where
  | success (message_id : Nat)
  | failure (e : ApiError)
  deriving DecidableEq, Repr

/-- Result of `TelegramQueue.handleError`. -/
structure HandleErrorResult where
  removeMessage : Bool
  removeUser : Bool
  retrySending : Bool
  retryAfter : Nat
  deriving DecidableEq, Repr

/-- JavaScript `s.includes(sub)` for a non-empty `sub`. -/
def jsIncludes (s sub : String) : Bool :=
  (s.splitOn sub).length > 1

/-- `TelegramQueue.handleError`: HTTP 429 requests a retry after
`parameters.retry_after || 1` seconds without dropping the item;
unreachable-subscriber descriptions drop the item and mark the user;
malformed-message descriptions and everything else drop the item. -/
def handleError (error : ApiError) : HandleErrorResult :=
  match error with
  | .unknown => { removeMessage := true, removeUser := false, retrySending := false, retryAfter := 1 }
  | .grammy errorCode description retry_after =>
    if errorCode = 429 then
      { removeMessage := false, removeUser := false, retrySending := true,
        retryAfter := match retry_after with
                      | some k => if k = 0 then 1 else k
                      | none => 1 }
    else if jsIncludes description "bot was blocked by the user" ||
            jsIncludes description "chat not found" ||
            jsIncludes description "bot was kicked" ||
            jsIncludes description "user is deactivated" then
      { removeMessage := true, removeUser := true, retrySending := false, retryAfter := 1 }
    else if jsIncludes description "message text is invalid" ||
            jsIncludes description "message to edit not found" then
      { removeMessage := true, removeUser := false, retrySending := false, retryAfter := 1 }
    else
      { removeMessage := true, removeUser := false, retrySending := false, retryAfter := 1 }

/-- Observable outcome of one iteration of the `processSendQueue`
loop. -/
structure SendStepResult where
  queue : List SendQueueItem
  resolved : Option (String × Nat)
  rejected : Option String
  sleepMs : Nat
  deriving DecidableEq, Repr

/-- One iteration of `TelegramQueue.processSendQueue` on a non-empty
queue: on success the head item is dequeued and its future resolved with
the Telegram message id (then the worker sleeps 200 ms); on an error
whose `handleError` action requests a retry the queue is left untouched
and the worker sleeps `retryAfter` seconds; otherwise, if the action
requests removal, the item is dequeued and its future rejected. -/
def processSendQueueStep (queue : List SendQueueItem) (response : ApiResponse) :
    SendStepResult :=
  match queue with
  | [] => { queue := [], resolved := none, rejected := none, sleepMs := 0 }
  | item :: rest =>
    match response with
    | .success message_id =>
      { queue := rest, resolved := some (item.messageId, message_id),
        rejected := none, sleepMs := 200 }
    | .failure err =>
      let action := handleError err
      if action.retrySending then
        { queue := item :: rest, resolved := none, rejected := none,
          sleepMs := action.retryAfter * 1000 }
      else if action.removeMessage then
        { queue := rest, resolved := none, rejected := some item.messageId,
          sleepMs := 0 }
      else
        { queue := item :: rest, resolved := none, rejected := none, sleepMs := 0 }

/-! ## Concrete inputs for the scenario theorems -/

/-- `n` zero nibbles. -/
def zeros (n : Nat) : List Hexit :=
  List.replicate n 0

/-- The 40 nibbles of the watched address `W`
(`0x5aaeb6053f3e94c9b9a09f33669435e7ef1beaed` lower-case). -/
def wNibbles : List Hexit :=
  [0x5, 0xa, 0xa, 0xe, 0xb, 0x6, 0x0, 0x5, 0x3, 0xf,
   0x3, 0xe, 0x9, 0x4, 0xc, 0x9, 0xb, 0x9, 0xa, 0x0,
   0x9, 0xf, 0x3, 0x3, 0x6, 0x6, 0x9, 0x4, 0x3, 0x5,
   0xe, 0x7, 0xe, 0xf, 0x1, 0xb, 0xe, 0xa, 0xe, 0xd]

/-- The lower-case string form of `W` (the watchlist key). -/
def wLowerStr : String :=
  lowerHexString wNibbles

/-- The 17 hex digits of `100·10^18 = 0x56bc75e2d63100000`. -/
def amountNibbles : List Hexit :=
  [0x5, 0x6, 0xb, 0xc, 0x7, 0x5, 0xe, 0x2, 0xd, 0x6, 0x3, 0x1, 0x0, 0x0, 0x0, 0x0, 0x0]

/-- Calldata of the scenario ERC20 transfer: selector `a9059cbb`, the
32-byte zero-padded address `W`, and the 32-byte amount `100·10^18`. -/
def transferData : List Hexit :=
  transferSelector ++ (zeros 24 ++ wNibbles) ++ (zeros 47 ++ amountNibbles)

/-- The scenario ERC20 token contract (the transaction target); its
EIP-55 checksum form is all lower-case. -/
def tokenAddress : String :=
  "0xde709f2102306220921060314715629080e2fb77"

/-- The SQL watchlist rows: one subscriber of `W` (stored checksummed,
as the bot's `/add` command stores it). -/
def scenarioRows : List WatchlistRow :=
  [{ address := "0x5aAeb6053F3E94C9b9A09f33669435E7Ef1BeAed",
     name := "alice", chat_id := 123, bot_id := "eth_spybot" }]

/-- The in-memory watchlist of the scenario. -/
def scenarioWatchlist : Watchlist :=
  updateWatchlist scenarioRows

/-- The token cache of the scenario: the token has `decimals = 18`. -/
def scenarioCache : TokenCache :=
  [(tokenAddress, { symbol := "TKN", decimals := 18 })]

/-- The configured base-token set of the scenario. -/
def scenarioBase : List String :=
  ["WETH"]

/-- The scenario transaction: an ERC20 `transfer` to `W` sent by an
unwatched address to the token contract. -/
def scenarioTx : TransactionData :=
  { hash := "0xabc123", blockNumber := some 100, toAddr := some tokenAddress,
    fromAddr := "0x1111111111111111111111111111111111111111", value := 0,
    data := transferData }

/-- The processing environment of the scenario: one active bot, a
Telegram queue resolving message id 77, no pair contracts, and a network
that resolves no further token. -/
def scenarioEnv : ProcessEnv :=
  { bots := ["eth_spybot"], sendApi := fun _ => 77, baseTokens := scenarioBase,
    cache := scenarioCache, net := fun _ => none, pairsFound := [],
    balanceData := { bal := "1.0", chn := " " },
    fullResult :=
      { status := some true, interact := [(tokenAddress, "TKN")], logs := some 1,
        blockNumber := some 100, contractAddress := none, pnl := "0.0",
        bal := "1.0", chn := ".", amount := some "100.00" } }

/-- Calldata whose arguments are exactly one 32-byte word (the zero
address): 72 nibbles in total, i.e. 32 bytes after the selector. -/
def dataC8 : List Hexit :=
  transferSelector ++ zeros 64

/-- A decoded trace in which two tokens interacted and the transaction
failed (`status = false`), with `tx.value = 0`. -/
def sellBugTrace : TracerResult :=
  { status := some false,
    interact := [("0xaaaa00000000000000000000000000000000aaaa", "AAA"),
                 ("0xbbbb00000000000000000000000000000000bbbb", "BBB")],
    logs := some 2, blockNumber := some 100, contractAddress := none,
    pnl := "0.0", bal := "1.0", chn := ".", amount := none }

/-- Provenance of one entry of a `resolveWithNetwork` result: it is
backed by a metadata record with positive decimals, either already in
the cache or decoded from the network response (in which case the stored
symbol is the trimmed decoded symbol, non-empty). -/
def GoodEntry (cache : TokenCache) (net : String → Option (String × Nat))
    (p : String × String) : Prop :=
  (∃ d, 0 < d ∧ (p.1, TokenMetadata.mk p.2 d) ∈ cache) ∨
  (∃ a sym d, jsToLower a = p.1 ∧ net a = some (sym, d) ∧ p.2 = jsTrim sym ∧
    jsTrim sym ≠ "" ∧ 0 < d)

/-- Provenance of one fetched-token record. -/
def FetchedGood (net : String → Option (String × Nat)) (p : String × TokenMetadata) : Prop :=
  ∃ sym d, net p.1 = some (sym, d) ∧ p.2 = TokenMetadata.mk (jsTrim sym) d ∧
    jsTrim sym ≠ "" ∧ 0 < d

/-! ## Theorems -/

/-- Keccak-256 of the empty string (standard test vector). -/
example : Keccak.keccak256 [] =
    [0xc5, 0xd2, 0x46, 0x01, 0x86, 0xf7, 0x23, 0x3c,
     0x92, 0x7e, 0x7d, 0xb2, 0xdc, 0xc7, 0x03, 0xc0,
     0xe5, 0x00, 0xb6, 0x53, 0xca, 0x82, 0x27, 0x3b,
     0x7b, 0xfa, 0xd8, 0x04, 0x5d, 0x85, 0xa4, 0x70] := by decide

/-- Keccak-256 of `"abc"` (standard test vector). -/
example : Keccak.keccak256 [0x61, 0x62, 0x63] =
    [0x4e, 0x03, 0x65, 0x7a, 0xea, 0x45, 0xa9, 0x4f,
     0xc7, 0xd4, 0x7b, 0xa8, 0x26, 0xc8, 0xd6, 0x67,
     0xc0, 0xd1, 0xe6, 0xe3, 0x3a, 0x64, 0xa0, 0x36,
     0xec, 0x44, 0xf5, 0x8f, 0xa1, 0x2d, 0x6c, 0x45] := by decide

/-- EIP-55 reference vector: a known mixed-case checksummed address. -/
example :
    checksumAddress [0x5, 0xa, 0xa, 0xe, 0xb, 0x6, 0x0, 0x5, 0x3, 0xf,
                     0x3, 0xe, 0x9, 0x4, 0xc, 0x9, 0xb, 0x9, 0xa, 0x0,
                     0x9, 0xf, 0x3, 0x3, 0x6, 0x6, 0x9, 0x4, 0x3, 0x5,
                     0xe, 0x7, 0xe, 0xf, 0x1, 0xb, 0xe, 0xa, 0xe, 0xd] =
      "0x5aAeb6053F3E94C9b9A09f33669435E7Ef1BeAed" := by decide

/-! Helper lemmas about `setRecord` / `getRecord`. -/

theorem mem_setRecord {α : Type} {m : List (String × α)} {k : String} {v : α}
    {p : String × α} (h : p ∈ setRecord m k v) : p = (k, v) ∨ p ∈ m := by
  induction m with
  | nil =>
    simp only [setRecord, List.mem_singleton] at h
    exact Or.inl h
  | cons q t ih =>
    obtain ⟨k', v'⟩ := q
    simp only [setRecord] at h
    split_ifs at h with hk
    · rcases List.mem_cons.mp h with h | h
      · exact Or.inl h
      · exact Or.inr (List.mem_cons_of_mem _ h)
    · rcases List.mem_cons.mp h with h | h
      · exact Or.inr (h ▸ List.mem_cons_self _ _)
      · rcases ih h with h | h
        · exact Or.inl h
        · exact Or.inr (List.mem_cons_of_mem _ h)

theorem getRecord_mem {α : Type} {m : List (String × α)} {k : String} {v : α}
    (h : getRecord m k = some v) : (k, v) ∈ m := by
  induction m with
  | nil => simp [getRecord] at h
  | cons q t ih =>
    obtain ⟨k', v'⟩ := q
    simp only [getRecord] at h
    split_ifs at h with hk
    · cases h; exact hk ▸ List.mem_cons_self _ _
    · exact List.mem_cons_of_mem _ (ih h)

theorem mem_getRecord_isSome {α : Type} {m : List (String × α)} {p : String × α}
    (h : p ∈ m) : (getRecord m p.1).isSome := by
  induction m with
  | nil => simp at h
  | cons q t ih =>
    obtain ⟨k', v'⟩ := q
    rcases List.mem_cons.mp h with h | h
    · subst h; simp [getRecord]
    · simp only [getRecord]
      split_ifs with hk
      · simp
      · exact ih h

/-! C4 -/

theorem runReader_nodup_aux :
    ∀ (hashes window : List String), window.length + hashes.length ≤ 10000 →
      (runReader window hashes).2.Nodup ∧
      ∀ x ∈ (runReader window hashes).2, x ∉ window := by
  intro hashes
  induction hashes with
  | nil => intro window _; simp [runReader]
  | cons h t ih =>
    intro window hlen
    simp only [runReader]
    by_cases hmem : h ∈ window
    · have hstep : processTransaction window h = ⟨false, window⟩ := by
        simp [processTransaction, hmem]
      rw [hstep]
      have hih := ih window (by simp at hlen ⊢; omega)
      obtain ⟨hnd, hnin⟩ := hih
      constructor
      · simpa using hnd
      · intro x hx
        refine hnin x ?_
        simpa using hx
    · have hnotover : ¬ (window ++ [h]).length > 10000 := by
        simp at hlen ⊢; omega
      have hstep : processTransaction window h = ⟨true, window ++ [h]⟩ := by
        simp only [processTransaction, if_neg hmem, if_neg hnotover]
      rw [hstep]
      have hih := ih (window ++ [h]) (by simp at hlen ⊢; omega)
      obtain ⟨hnd, hnin⟩ := hih
      constructor
      · simp only [if_true, List.singleton_append, List.nodup_cons]
        refine ⟨fun hmem' => ?_, hnd⟩
        exact hnin h hmem' (by simp)
      · intro x hx
        simp only [if_true, List.singleton_append, List.mem_cons] at hx
        rcases hx with rfl | hx
        · exact hmem
        · intro hxw
          exact hnin x hx (by simp [hxw])

/-- C4: every sequence of blocks accepted by C5 emits no transaction
hash twice within the sliding deduplication window — a hash in the
window is not emitted and the window is unchanged; a fresh hash is
emitted and recorded; and when the window exceeds its cap of 10 000
entries the oldest 5 000 entries (the oldest half of the cap) are
evicted in insertion order.  Consequently a run that cannot overflow the
window emits no duplicates. -/
theorem reader_dedup_window :
    (∀ (window : List String) (h : String), h ∈ window →
      processTransaction window h = ⟨false, window⟩) ∧
    (∀ (window : List String) (h : String), h ∉ window →
      processTransaction window h =
        ⟨true, if (window ++ [h]).length > 10000
               then (window ++ [h]).drop 5000 else window ++ [h]⟩) ∧
    (∀ hashes : List String, hashes.length ≤ 10000 →
      (runReader [] hashes).2.Nodup) := by
  refine ⟨?_, ?_, ?_⟩
  · intro window h hmem
    simp [processTransaction, hmem]
  · intro window h hmem
    simp only [processTransaction, if_neg hmem]
    split_ifs <;> rfl
  · intro hashes hlen
    exact (runReader_nodup_aux hashes [] (by simpa using hlen)).1

/-- C4 witness: the three parts at concrete inputs. -/
theorem reader_dedup_window_witness :
    processTransaction ["0xh"] "0xh" = ⟨false, ["0xh"]⟩ ∧
    processTransaction ["0xg"] "0xh" =
      ⟨true, if ((["0xg"] : List String) ++ ["0xh"]).length > 10000
             then ((["0xg"] : List String) ++ ["0xh"]).drop 5000
             else ["0xg"] ++ ["0xh"]⟩ ∧
    (runReader [] ["0xa", "0xb", "0xa"]).2.Nodup :=
  ⟨reader_dedup_window.1 _ _ (by decide),
   reader_dedup_window.2.1 _ _ (by decide),
   reader_dedup_window.2.2 _ (by decide)⟩

/-! C6 -/

/-- C6: when the send-queue worker receives HTTP 429 with advisory
`retry_after = k`, the head item stays enqueued with its future
unsettled and the worker sleeps `(retry_after || 1)` seconds — at least
`k` seconds; a subsequent success dequeues the item and resolves its
future with the returned message id. -/
theorem queue_rate_limit_retry :
    ∀ (item : SendQueueItem) (rest : List SendQueueItem) (description : String)
      (k m : Nat),
      processSendQueueStep (item :: rest)
          (ApiResponse.failure (ApiError.grammy 429 description (some k))) =
        { queue := item :: rest, resolved := none, rejected := none,
          sleepMs := (if k = 0 then 1 else k) * 1000 } ∧
      k * 1000 ≤ (if k = 0 then 1 else k) * 1000 ∧
      processSendQueueStep (item :: rest) (ApiResponse.success m) =
        { queue := rest, resolved := some (item.messageId, m), rejected := none,
          sleepMs := 200 } := by
  intro item rest description k m
  refine ⟨?_, ?_, rfl⟩
  · simp [processSendQueueStep, handleError]
  · split_ifs with hk <;> omega

/-! C5 and C10 -/

theorem executeParallel_error_iff (method : String) (outcomes : List NodeOutcome)
    (strategy : ConsensusStrategy) :
    executeParallel method outcomes strategy =
        Except.error ("[RPC FAIL] All nodes failed for method: " ++ method) ↔
      ∀ o ∈ outcomes, o = NodeOutcome.err ∨ o = NodeOutcome.ok none := by
  have hnil : (outcomes.filterMap fun o => match o with
      | NodeOutcome.ok (some v) => some v
      | _ => none) = [] ↔
      ∀ o ∈ outcomes, o = NodeOutcome.err ∨ o = NodeOutcome.ok none := by
    rw [List.filterMap_eq_nil_iff]
    constructor
    · intro h o ho
      have := h o ho
      match o with
      | NodeOutcome.err => exact Or.inl rfl
      | NodeOutcome.ok none => exact Or.inr rfl
      | NodeOutcome.ok (some v) => simp at this
    · intro h o ho
      rcases h o ho with rfl | rfl <;> rfl
  unfold executeParallel
  dsimp only
  split_ifs with h
  · simp only [true_iff]
    exact hnil.mp (List.length_eq_zero.mp h)
  · constructor
    · intro he; exact absurd he (by simp)
    · intro hall
      exact absurd (by rw [List.length_eq_zero]; exact hnil.mpr hall) h

/-- C5 (amended): the fan-out call fails exactly when every endpoint
errors, times out, or fulfills with `null`; the failure is the generic
all-nodes-failed error naming only the method; whenever at least one
endpoint fulfills with a non-`null` result, the call succeeds. -/
theorem rpc_fanout_failure_spec (method : String) (outcomes : List NodeOutcome)
    (strategy : ConsensusStrategy) :
    (executeParallel method outcomes strategy =
        Except.error ("[RPC FAIL] All nodes failed for method: " ++ method) ↔
      ∀ o ∈ outcomes, o = NodeOutcome.err ∨ o = NodeOutcome.ok none) ∧
    ((∃ o ∈ outcomes, ∃ v, o = NodeOutcome.ok (some v)) →
      ∃ r, executeParallel method outcomes strategy = Except.ok r) := by
  refine ⟨executeParallel_error_iff method outcomes strategy, ?_⟩
  rintro ⟨o, ho, v, rfl⟩
  unfold executeParallel
  dsimp only
  split_ifs with h
  · exfalso
    have hnone := List.filterMap_eq_nil_iff.mp (List.length_eq_zero.mp h) _ ho
    simp at hnone
  · exact ⟨_, rfl⟩

/-- C5 counterexample: a single endpoint that fulfills with `null`
(neither an error nor a timeout) still makes the call fail — the thrown
error names only the method. -/
theorem rpc_fanout_null_fulfilment_counterexample :
    executeParallel "getBlock" [NodeOutcome.ok none] ConsensusStrategy.firstSuccess =
      Except.error "[RPC FAIL] All nodes failed for method: getBlock" ∧
    NodeOutcome.ok none ≠ NodeOutcome.err := by
  exact ⟨rfl, fun h => NodeOutcome.noConfusion h⟩

/-- C5 witness: with one errored and one successful endpoint the call
succeeds. -/
theorem rpc_fanout_failure_spec_witness :
    ∃ r, executeParallel "getChainId"
        [NodeOutcome.err, NodeOutcome.ok (some RpcValue.other)]
        ConsensusStrategy.firstSuccess = Except.ok r :=
  (rpc_fanout_failure_spec "getChainId" _ _).2
    ⟨NodeOutcome.ok (some RpcValue.other), by simp, RpcValue.other, rfl⟩

/-- C10: endpoint responses fulfilling with `null` count as failed, so a
call in which every endpoint returns `null` without error throws the
all-nodes-failed error instead of returning `null`. -/
theorem rpc_fanout_all_null_throws (method : String)
    (strategy : ConsensusStrategy) (outcomes : List NodeOutcome)
    (_hne : outcomes ≠ []) (hall : ∀ o ∈ outcomes, o = NodeOutcome.ok none) :
    executeParallel method outcomes strategy =
      Except.error ("[RPC FAIL] All nodes failed for method: " ++ method) :=
  (executeParallel_error_iff method outcomes strategy).mpr
    (fun o ho => Or.inr (hall o ho))

/-- C10 witness. -/
theorem rpc_fanout_all_null_throws_witness :
    executeParallel "getCode" [NodeOutcome.ok none] ConsensusStrategy.firstSuccess =
      Except.error "[RPC FAIL] All nodes failed for method: getCode" :=
  rpc_fanout_all_null_throws "getCode" ConsensusStrategy.firstSuccess _
    (by simp) (by simp)

/-! C7 -/

/-- C7 (code bug): with more than one interacted token, a failed status
(`decoded.status === false`) and `tx.value = 0`, the source renders the
Buy label (the `status === false` branch overrides the Sell label),
while the documented mapping requires Sell. -/
theorem multi_token_status_false_renders_buy :
    (prepareMessageParams "https://chart/" "https://explorer/" ["WETH"]
        "0x9999999999999999999999999999999999999999"
        (some "0x8888888888888888888888888888888888888888")
        "0x7777777777777777777777777777777777777777" 0 sellBugTrace
        "0x12345678").icon = "❌<b>🟢 Buy</b>:  " := by rfl

/-! C8 -/

/-- C8 (amended): `extractTransferRecipient` returns a non-null address
exactly when the calldata starts with `0xa9059cbb` and has at least 32
bytes after the selector (72 nibbles in total, JavaScript
`data.length >= 74`), in which case it returns the trailing 20 bytes of
the first 32-byte argument, checksum-cased; otherwise `null`. -/
theorem extractTransferRecipient_spec (data : List Hexit) :
    ((extractTransferRecipient data).isSome ↔
      data.take 8 = transferSelector ∧ 72 ≤ data.length) ∧
    ∀ s, extractTransferRecipient data = some s →
      s = checksumAddress ((data.drop 32).take 40) := by
  unfold extractTransferRecipient
  constructor
  · split_ifs with h
    · simp only [Option.isSome_some, true_iff]
      exact ⟨h.1, by omega⟩
    · simp only [Option.isSome_none, Bool.false_eq_true, false_iff]
      intro hc
      exact h ⟨hc.1, by omega⟩
  · intro s hs
    split_ifs at hs with h
    cases hs
    rfl

/-- C8 counterexample: calldata with the transfer selector and exactly
one 32-byte argument (32 bytes after the selector, fewer than the 36 the
claim requires) still yields a non-null recipient. -/
theorem extractTransferRecipient_accepts_32_byte_args :
    (extractTransferRecipient dataC8).isSome ∧ dataC8.length = 72 := by
  exact ⟨rfl, rfl⟩

/-- C8 witness: the amended specification applied to `dataC8`. -/
theorem extractTransferRecipient_spec_witness :
    extractTransferRecipient dataC8 =
      some (checksumAddress ((dataC8.drop 32).take 40)) := by
  obtain ⟨h1, h2⟩ := extractTransferRecipient_spec dataC8
  have hs : (extractTransferRecipient dataC8).isSome := h1.mpr ⟨by decide, by decide⟩
  obtain ⟨s, hseq⟩ := Option.isSome_iff_exists.mp hs
  rw [hseq, h2 s hseq]

/-! C2 -/

theorem massSend_sent_spec (bots : List String) (sendApi : String → Nat)
    (watchers : List (String × WatchlistEntry)) (txOutgoing : Bool) :
    ∀ p ∈ (massSend bots sendApi watchers txOutgoing).sent,
      sendApi p.1 = p.2 ∧ p.2 ≠ 0 := by
  have aux : ∀ (l : List (String × WatchlistEntry)) (acc : MassSendResult),
      (∀ p ∈ acc.sent, sendApi p.1 = p.2 ∧ p.2 ≠ 0) →
      ∀ p ∈ (l.foldl (massSendStep bots sendApi txOutgoing) acc).sent,
        sendApi p.1 = p.2 ∧ p.2 ≠ 0 := by
    intro l
    induction l with
    | nil => intro acc hacc; simpa using hacc
    | cons q t ih =>
      intro acc hacc
      rw [List.foldl_cons]
      refine ih _ ?_
      intro p hp
      unfold massSendStep at hp
      dsimp only at hp
      split_ifs at hp with h1 h2 h3 h4
      all_goals try exact hacc p hp
      rcases mem_setRecord hp with rfl | hp
      · exact ⟨rfl, h4⟩
      · exact hacc p hp
  exact aux watchers ⟨[], []⟩ (by simp)

theorem massUpdate_mem_spec (bots : List String)
    (watchers : List (String × WatchlistEntry)) (sentMap : List (String × Nat))
    (txOutgoing : Bool) :
    ∀ p ∈ massUpdate bots watchers sentMap txOutgoing,
      getRecord sentMap p.1 = some p.2 := by
  have aux : ∀ (l : List (String × Nat)) (acc : List (String × Nat)),
      (∀ q ∈ l, q ∈ sentMap) →
      (∀ p ∈ acc, getRecord sentMap p.1 = some p.2) →
      ∀ p ∈ l.foldl (massUpdateStep bots watchers sentMap txOutgoing) acc,
        getRecord sentMap p.1 = some p.2 := by
    intro l
    induction l with
    | nil => intro acc _ hacc; simpa using hacc
    | cons q t ih =>
      intro acc hl hacc
      rw [List.foldl_cons]
      refine ih _ (fun r hr => hl r (List.mem_cons_of_mem _ hr)) ?_
      intro p hp
      unfold massUpdateStep at hp
      dsimp only at hp
      rcases hw : getRecord watchers q.1 with _ | w
      · rw [hw] at hp
        dsimp only at hp
        exact hacc p hp
      · rw [hw] at hp
        dsimp only at hp
        split_ifs at hp with h1 h2 h3
        all_goals try exact hacc p hp
        rcases List.mem_append.mp hp with hp | hp
        · exact hacc p hp
        · have hq := hl q (List.mem_cons_self _ _)
          have hsome := mem_getRecord_isSome hq
          obtain ⟨v, hv⟩ := Option.isSome_iff_exists.mp hsome
          rcases List.mem_singleton.mp hp with rfl
          simp [hv]
  exact aux sentMap [] (fun q hq => hq) (by simp)

/-- C2: every full-decode edit issued by `massUpdate` on the
`{subscriber → message-id}` map returned by `massSend` targets a
subscriber of that map with exactly the message id that the send for
this subscriber returned (and message ids of the map are the truthy ids
the queue resolved). -/
theorem massUpdate_targets_sent_map :
    ∀ (bots : List String) (sendApi : String → Nat)
      (watchers : List (String × WatchlistEntry)) (txOutgoing : Bool),
      ∀ p ∈ massUpdate bots watchers
          (massSend bots sendApi watchers txOutgoing).sent txOutgoing,
        getRecord (massSend bots sendApi watchers txOutgoing).sent p.1 = some p.2 ∧
        sendApi p.1 = p.2 ∧ p.2 ≠ 0 := by
  intro bots sendApi watchers txOutgoing p hp
  have h1 := massUpdate_mem_spec bots watchers
    (massSend bots sendApi watchers txOutgoing).sent txOutgoing p hp
  have h2 := massSend_sent_spec bots sendApi watchers txOutgoing _ (getRecord_mem h1)
  exact ⟨h1, h2⟩

/-- C2 witness: one watcher, one successful send with message id 5, the
edit targets the same subscriber and message id 5. -/
theorem massUpdate_targets_sent_map_witness :
    getRecord (massSend ["bot"] (fun _ => 5)
        [("42@bot", ⟨"alice", true, true⟩)] true).sent "42@bot" = some 5 ∧
    (fun (_ : String) => 5) "42@bot" = 5 ∧ (5 : Nat) ≠ 0 :=
  massUpdate_targets_sent_map ["bot"] (fun _ => 5)
    [("42@bot", ⟨"alice", true, true⟩)] true ("42@bot", 5) (by decide)

/-! C3 -/

theorem mem_alreadySent_sent (sent : List String) (address hash : String) :
    (address ++ ":" ++ hash) ∈ (alreadySent sent address hash).sent := by
  unfold alreadySent
  by_cases hmem : (address ++ ":" ++ hash) ∈ sent
  · simp [hmem]
  · simp only [if_neg hmem]
    split_ifs with hover hfirst
    · rcases sent with _ | ⟨s0, st⟩
      · simp at hover
      · simp
    · simp
    · simp

theorem process_sent_unchanged_of_dup (env : ProcessEnv) (watchlist : Watchlist)
    (sent : List String) (address : String) (tx : TransactionData)
    (hmem : (address ++ ":" ++ tx.hash) ∈ sent) :
    process env watchlist sent address tx =
      ⟨sent, ⟨[], []⟩, [], none⟩ := by
  unfold process alreadySent
  dsimp only
  simp [hmem]

theorem process_key_mem (env : ProcessEnv) (watchlist : Watchlist)
    (sent : List String) (address : String) (tx : TransactionData) :
    (address ++ ":" ++ tx.hash) ∈ (process env watchlist sent address tx).sent := by
  have h := mem_alreadySent_sent sent address tx.hash
  unfold process
  dsimp only
  split_ifs <;> exact h

/-- C3: for every (watched-address, tx-hash) pair the processor sends at
most once over its deduplication window — a pair whose key is still in
the window is dropped with no send, no edit and no state change; after
any `process` call the key is in the window, so an immediately repeated
call for the same pair performs no send; and on overflow of the
10 000-entry window the oldest key is evicted in insertion order. -/
theorem processor_dedup_at_most_once :
    (∀ (env : ProcessEnv) (watchlist : Watchlist) (sent : List String)
       (address : String) (tx : TransactionData),
       (address ++ ":" ++ tx.hash) ∈ sent →
       process env watchlist sent address tx = ⟨sent, ⟨[], []⟩, [], none⟩) ∧
    (∀ (env env' : ProcessEnv) (watchlist watchlist' : Watchlist)
       (sent : List String) (address : String) (tx : TransactionData),
       process env' watchlist'
           (process env watchlist sent address tx).sent address tx =
         ⟨(process env watchlist sent address tx).sent, ⟨[], []⟩, [], none⟩) ∧
    (∀ (sent : List String) (address hash : String),
       (address ++ ":" ++ hash) ∉ sent → "" ∉ sent → sent.length ≤ 10000 →
       (alreadySent sent address hash).sent =
         if sent.length = 10000 then sent.tail ++ [address ++ ":" ++ hash]
         else sent ++ [address ++ ":" ++ hash]) := by
  refine ⟨?_, ?_, ?_⟩
  · exact process_sent_unchanged_of_dup
  · intro env env' watchlist watchlist' sent address tx
    exact process_sent_unchanged_of_dup env' watchlist' _ address tx
      (process_key_mem env watchlist sent address tx)
  · intro sent address hash hkey hempty hlen
    by_cases hc : sent.length = 10000
    · rw [if_pos hc]
      unfold alreadySent
      simp only [if_neg hkey]
      have hover : (sent ++ [address ++ ":" ++ hash]).length > 10000 := by
        simp; omega
      rw [if_pos hover]
      rcases sent with _ | ⟨s0, st⟩
      · simp at hc
      · have hs0 : s0 ≠ "" := fun h0 => hempty (h0 ▸ List.mem_cons_self _ _)
        simp [hs0]
    · rw [if_neg hc]
      unfold alreadySent
      simp only [if_neg hkey]
      have hover : ¬ (sent ++ [address ++ ":" ++ hash]).length > 10000 := by
        simp; omega
      rw [if_neg hover]

/-- C3 witness: a key already in the window yields no send and an
unchanged window. -/
theorem processor_dedup_at_most_once_witness :
    process scenarioEnv scenarioWatchlist ["0xa:0xh"] "0xa"
        ⟨"0xh", none, none, "0xf", 10 ^ 18, []⟩ =
      ⟨["0xa:0xh"], ⟨[], []⟩, [], none⟩ :=
  processor_dedup_at_most_once.1 scenarioEnv scenarioWatchlist ["0xa:0xh"] "0xa"
    ⟨"0xh", none, none, "0xf", 10 ^ 18, []⟩ (by decide)

/-! C9 -/

theorem keys_setRecord {α : Type} {m : List (String × α)} {k a : String} {v : α}
    (h : a ∈ (setRecord m k v).map Prod.fst) : a = k ∨ a ∈ m.map Prod.fst := by
  rcases List.mem_map.mp h with ⟨p, hp, rfl⟩
  rcases mem_setRecord hp with rfl | hp
  · exact Or.inl rfl
  · exact Or.inr (List.mem_map_of_mem _ hp)

theorem nodupKeys_setRecord {α : Type} {m : List (String × α)} {k : String} {v : α}
    (h : (m.map Prod.fst).Nodup) : ((setRecord m k v).map Prod.fst).Nodup := by
  induction m with
  | nil => simp [setRecord]
  | cons q t ih =>
    obtain ⟨k', v'⟩ := q
    simp only [List.map_cons, List.nodup_cons] at h
    obtain ⟨hk', ht⟩ := h
    simp only [setRecord]
    split_ifs with hk
    · subst hk
      rw [List.map_cons]
      exact List.nodup_cons.mpr ⟨hk', ht⟩
    · simp only [List.map_cons, List.nodup_cons]
      refine ⟨fun hmem => ?_, ih ht⟩
      rcases keys_setRecord hmem with rfl | hmem
      · exact hk rfl
      · exact hk' hmem

theorem nodup_getRecord_of_mem {α : Type} {m : List (String × α)} {p : String × α}
    (hnd : (m.map Prod.fst).Nodup) (h : p ∈ m) : getRecord m p.1 = some p.2 := by
  induction m with
  | nil => simp at h
  | cons q t ih =>
    obtain ⟨k', v'⟩ := q
    simp only [List.map_cons, List.nodup_cons] at hnd
    obtain ⟨hk', ht⟩ := hnd
    rcases List.mem_cons.mp h with rfl | h
    · simp [getRecord]
    · simp only [getRecord]
      split_ifs with hk
      · exfalso
        exact hk' (hk ▸ List.mem_map_of_mem _ h)
      · exact ih ht h

theorem nodupKeys_mem_eq {α : Type} {m : List (String × α)} {p q : String × α}
    (hnd : (m.map Prod.fst).Nodup) (hp : p ∈ m) (hq : q ∈ m) (hk : p.1 = q.1) :
    p = q := by
  have h1 := nodup_getRecord_of_mem hnd hp
  have h2 := nodup_getRecord_of_mem hnd hq
  rw [hk] at h1
  rw [h1] at h2
  exact Prod.ext hk (Option.some.inj h2)

theorem setRecord_append {α : Type} {xs ys : List (String × α)} {k : String} {v : α}
    (h : k ∉ xs.map Prod.fst) :
    setRecord (xs ++ ys) k v = xs ++ setRecord ys k v := by
  induction xs with
  | nil => simp
  | cons q t ih =>
    obtain ⟨k', v'⟩ := q
    simp only [List.map_cons, List.mem_cons] at h
    push_neg at h
    simp only [List.cons_append, setRecord]
    rw [if_neg (fun hc => h.1 hc.symm)]
    exact congrArg _ (ih h.2)

theorem getTokens_fold_spec (cache : TokenCache) :
    ∀ (l : List String) (acc : List (String × TokenMetadata)),
      (∀ p ∈ acc, getRecord cache p.1 = some p.2) →
      ∀ p ∈ l.foldl (getTokensStep cache) acc, getRecord cache p.1 = some p.2 := by
  intro l
  induction l with
  | nil => intro acc hacc; simpa using hacc
  | cons a t ih =>
    intro acc hacc
    rw [List.foldl_cons]
    refine ih _ ?_
    intro p hp
    unfold getTokensStep getToken at hp
    rcases hc : getRecord cache (jsToLower a) with _ | token
    · rw [hc] at hp
      exact hacc p hp
    · rw [hc] at hp
      dsimp only at hp
      rcases mem_setRecord hp with rfl | hp
      · exact hc
      · exact hacc p hp

theorem getTokens_spec (cache : TokenCache) (addresses : List String) :
    ∀ p ∈ getTokens cache addresses, getRecord cache p.1 = some p.2 :=
  getTokens_fold_spec cache addresses [] (by simp)

theorem fetch_fold_spec (net : String → Option (String × Nat)) :
    ∀ (l : List String) (acc : List (String × TokenMetadata)),
      (∀ p ∈ acc, FetchedGood net p) →
      ∀ p ∈ l.foldl (fetchStep net) acc, FetchedGood net p := by
  intro l
  induction l with
  | nil => intro acc hacc; simpa using hacc
  | cons a t ih =>
    intro acc hacc
    rw [List.foldl_cons]
    refine ih _ ?_
    intro p hp
    unfold fetchStep at hp
    rcases hn : net a with _ | ⟨sym, d⟩
    · rw [hn] at hp
      exact hacc p hp
    · rw [hn] at hp
      dsimp only at hp
      split_ifs at hp with hgate
      · rcases mem_setRecord hp with rfl | hp
        · exact ⟨sym, d, hn, rfl, hgate.1, hgate.2⟩
        · exact hacc p hp
      · exact hacc p hp

theorem fetchTokensFromNetwork_spec (net : String → Option (String × Nat))
    (addresses : List String) :
    ∀ p ∈ fetchTokensFromNetwork net addresses, FetchedGood net p :=
  fetch_fold_spec net addresses [] (by simp)

theorem split_fold_spec (cachedTokens : List (String × TokenMetadata)) :
    ∀ (l : List String) (acc : TokenMap × List String),
      (∀ p ∈ acc.1, ∃ t, getRecord cachedTokens p.1 = some t ∧ p.2 = t.symbol) →
      ∀ p ∈ (l.foldl (splitStep cachedTokens) acc).1,
        ∃ t, getRecord cachedTokens p.1 = some t ∧ p.2 = t.symbol := by
  intro l
  induction l with
  | nil => intro acc hacc; simpa using hacc
  | cons a t ih =>
    intro acc hacc
    rw [List.foldl_cons]
    refine ih _ ?_
    intro p hp
    unfold splitStep at hp
    dsimp only at hp
    rcases hc : getRecord cachedTokens (jsToLower a) with _ | token
    · rw [hc] at hp
      exact hacc p hp
    · rw [hc] at hp
      dsimp only at hp
      rcases mem_setRecord hp with rfl | hp
      · exact ⟨token, hc, rfl⟩
      · exact hacc p hp

theorem split_fold_nodup (cachedTokens : List (String × TokenMetadata)) :
    ∀ (l : List String) (acc : TokenMap × List String),
      (acc.1.map Prod.fst).Nodup →
      ((l.foldl (splitStep cachedTokens) acc).1.map Prod.fst).Nodup := by
  intro l
  induction l with
  | nil => intro acc hacc; simpa using hacc
  | cons a t ih =>
    intro acc hacc
    rw [List.foldl_cons]
    refine ih _ ?_
    unfold splitStep
    dsimp only
    rcases hc : getRecord cachedTokens (jsToLower a) with _ | token
    · exact hacc
    · exact nodupKeys_setRecord hacc

theorem resolveFetch_fold_spec (fetched : List (String × TokenMetadata)) :
    ∀ (l : List String) (acc : TokenMap × TokenCache),
      ∀ p ∈ (l.foldl (resolveFetchStep fetched) acc).1,
        p ∈ acc.1 ∨ ∃ a td, getRecord fetched a = some td ∧
          p = (jsToLower a, td.symbol) ∧ td.symbol ≠ "" ∧ 0 < td.decimals := by
  intro l
  induction l with
  | nil => intro acc p hp; exact Or.inl hp
  | cons a t ih =>
    intro acc p hp
    rw [List.foldl_cons] at hp
    rcases ih _ p hp with hmem | hnew
    · unfold resolveFetchStep at hmem
      dsimp only at hmem
      rcases hc : getRecord fetched a with _ | td
      · rw [hc] at hmem
        exact Or.inl hmem
      · rw [hc] at hmem
        dsimp only at hmem
        split_ifs at hmem with hgate
        · rcases mem_setRecord hmem with rfl | hmem
          · exact Or.inr ⟨a, td, hc, rfl, hgate.1, hgate.2⟩
          · exact Or.inl hmem
        · exact Or.inl hmem
    · exact Or.inr hnew

theorem resolveFetch_fold_nodup (fetched : List (String × TokenMetadata)) :
    ∀ (l : List String) (acc : TokenMap × TokenCache),
      (acc.1.map Prod.fst).Nodup →
      ((l.foldl (resolveFetchStep fetched) acc).1.map Prod.fst).Nodup := by
  intro l
  induction l with
  | nil => intro acc hacc; simpa using hacc
  | cons a t ih =>
    intro acc hacc
    rw [List.foldl_cons]
    refine ih _ ?_
    unfold resolveFetchStep
    dsimp only
    rcases hc : getRecord fetched a with _ | td
    · exact hacc
    · dsimp only
      split_ifs with hgate
      · exact nodupKeys_setRecord hacc
      · exact hacc

theorem sortNonBase_fold_spec (base : List String) (m : TokenMap) :
    ∀ (l : List (String × String)) (acc : TokenMap),
      (∀ q ∈ l, q ∈ m) →
      (∀ p ∈ acc, p ∈ m ∧ base.contains p.2 = false) →
      ∀ p ∈ l.foldl (sortNonBaseStep base) acc,
        p ∈ m ∧ base.contains p.2 = false := by
  intro l
  induction l with
  | nil => intro acc _ hacc; simpa using hacc
  | cons q t ih =>
    intro acc hl hacc
    rw [List.foldl_cons]
    refine ih _ (fun r hr => hl r (List.mem_cons_of_mem _ hr)) ?_
    intro p hp
    unfold sortNonBaseStep at hp
    by_cases hgate : base.contains q.2 = true
    · rw [if_neg (not_not_intro hgate)] at hp
      exact hacc p hp
    · rw [if_pos hgate] at hp
      rcases mem_setRecord hp with rfl | hp
      · refine ⟨?_, Bool.eq_false_iff.mpr hgate⟩
        simpa using hl q (List.mem_cons_self _ _)
      · exact hacc p hp

theorem sortBase_fold_split (base : List String) (m : TokenMap)
    (hnd : (m.map Prod.fst).Nodup) (s1 : TokenMap)
    (hs1 : ∀ p ∈ s1, p ∈ m ∧ base.contains p.2 = false) :
    ∀ (l : List (String × String)), (∀ q ∈ l, q ∈ m) →
      ∀ ys : TokenMap, (∀ p ∈ ys, base.contains p.2 = true) →
      ∃ ys', l.foldl (sortBaseStep base) (s1 ++ ys) = s1 ++ ys' ∧
        ∀ p ∈ ys', base.contains p.2 = true := by
  intro l
  induction l with
  | nil =>
    intro _ ys hys
    exact ⟨ys, rfl, hys⟩
  | cons q t ih =>
    intro hl ys hys
    rw [List.foldl_cons]
    unfold sortBaseStep
    by_cases hgate : base.contains q.2 = true
    all_goals rw [show (if base.contains q.2 then setRecord (s1 ++ ys) q.1 q.2
      else s1 ++ ys) = if base.contains q.2 = true then setRecord (s1 ++ ys) q.1 q.2
      else s1 ++ ys from rfl]
    · rw [if_pos hgate]
      have hfresh : q.1 ∉ s1.map Prod.fst := by
        intro hk
        rcases List.mem_map.mp hk with ⟨p, hp, hpk⟩
        have hpm := hs1 p hp
        have heq := nodupKeys_mem_eq hnd hpm.1 (hl q (List.mem_cons_self _ _)) hpk
        rw [heq] at hpm
        rw [hgate] at hpm
        simp at hpm
      rw [setRecord_append hfresh]
      refine ih (fun r hr => hl r (List.mem_cons_of_mem _ hr))
        (setRecord ys q.1 q.2) ?_
      intro p hp
      rcases mem_setRecord hp with rfl | hp
      · exact hgate
      · exact hys p hp
    · rw [if_neg hgate]
      exact ih (fun r hr => hl r (List.mem_cons_of_mem _ hr)) ys hys

theorem sortTokens_split (base : List String) (m : TokenMap)
    (hnd : (m.map Prod.fst).Nodup) :
    ∃ xs ys, sortTokens base m = xs ++ ys ∧
      (∀ p ∈ xs, base.contains p.2 = false) ∧
      (∀ p ∈ ys, base.contains p.2 = true) := by
  have hs1 : ∀ p ∈ m.foldl (sortNonBaseStep base) [], p ∈ m ∧ base.contains p.2 = false :=
    sortNonBase_fold_spec base m m [] (fun q hq => hq) (by simp)
  have h2 := sortBase_fold_split base m hnd _ hs1 m (fun q hq => hq) [] (by simp)
  rw [List.append_nil] at h2
  obtain ⟨ys, heq, hys⟩ := h2
  exact ⟨_, ys, heq, fun p hp => (hs1 p hp).2, hys⟩

theorem sortTokens_mem (base : List String) (m : TokenMap) :
    ∀ p ∈ sortTokens base m, p ∈ m := by
  have aux : ∀ (step : TokenMap → String × String → TokenMap),
      (step = sortNonBaseStep base ∨ step = sortBaseStep base) →
      ∀ (l : List (String × String)) (acc : TokenMap),
      (∀ q ∈ l, q ∈ m) → (∀ p ∈ acc, p ∈ m) →
      ∀ p ∈ l.foldl step acc, p ∈ m := by
    intro step hstep l
    induction l with
    | nil => intro acc _ hacc; simpa using hacc
    | cons q t ih =>
      intro acc hl hacc
      rw [List.foldl_cons]
      refine ih _ (fun r hr => hl r (List.mem_cons_of_mem _ hr)) ?_
      intro p hp
      have hmq : (q.1, q.2) ∈ m := by
        simpa using hl q (List.mem_cons_self _ _)
      rcases hstep with rfl | rfl
      · unfold sortNonBaseStep at hp
        split_ifs at hp
        all_goals
          first
            | exact hacc p hp
            | exact (mem_setRecord hp).elim
                (fun heq => by rw [heq]; exact hmq) (fun hmem => hacc p hmem)
      · unfold sortBaseStep at hp
        split_ifs at hp
        all_goals
          first
            | exact hacc p hp
            | exact (mem_setRecord hp).elim
                (fun heq => by rw [heq]; exact hmq) (fun hmem => hacc p hmem)
  intro p hp
  unfold sortTokens at hp
  refine aux _ (Or.inr rfl) m _ (fun q hq => hq) ?_ p hp
  exact aux _ (Or.inl rfl) m [] (fun q hq => hq) (by simp)

/-- C9: `resolveWithNetwork` returns only entries whose symbol is
non-empty and backed by a positive-decimals metadata record (from the
cache — assumed well-formed, as `addToken` only ever stores such
records — or trimmed from the network response), and the returned map is
a block of non-base-token entries followed by a block of base-token
entries. -/
theorem resolve_only_good_entries_sorted
    (baseTokens : List String) (cache : TokenCache)
    (net : String → Option (String × Nat)) (addresses : List String)
    (hcache : ∀ q ∈ cache, jsTrim q.2.symbol ≠ "" ∧ 0 < q.2.decimals) :
    (∀ p ∈ (resolveWithNetwork baseTokens cache net addresses).1,
       p.2 ≠ "" ∧ GoodEntry cache net p) ∧
    (∃ xs ys, (resolveWithNetwork baseTokens cache net addresses).1 = xs ++ ys ∧
      (∀ p ∈ xs, baseTokens.contains p.2 = false) ∧
      (∀ p ∈ ys, baseTokens.contains p.2 = true)) := by
  unfold resolveWithNetwork
  split_ifs with hempty
  · exact ⟨by simp, [], [], by simp⟩
  · dsimp only
    set cachedTokens := getTokens cache addresses with hct
    set start := addresses.foldl (splitStep cachedTokens) ([], []) with hstart
    set after :=
      (if start.2.length > 0 then
        (start.2).foldl (resolveFetchStep (fetchTokensFromNetwork net start.2))
          (start.1, cache)
       else (start.1, cache)) with hafter
    have hstart_spec : ∀ p ∈ start.1,
        ∃ t, getRecord cachedTokens p.1 = some t ∧ p.2 = t.symbol :=
      split_fold_spec cachedTokens addresses ([], []) (by simp)
    have hstart_nodup : (start.1.map Prod.fst).Nodup :=
      split_fold_nodup cachedTokens addresses ([], []) (by simp)
    have hafter_spec : ∀ p ∈ after.1,
        p ∈ start.1 ∨ ∃ a td,
          getRecord (fetchTokensFromNetwork net start.2) a = some td ∧
          p = (jsToLower a, td.symbol) ∧ td.symbol ≠ "" ∧ 0 < td.decimals := by
      rw [hafter]
      split_ifs with hfetch
      · intro p hp
        exact resolveFetch_fold_spec _ start.2 (start.1, cache) p hp
      · intro p hp
        exact Or.inl hp
    have hafter_nodup : (after.1.map Prod.fst).Nodup := by
      rw [hafter]
      split_ifs with hfetch
      · exact resolveFetch_fold_nodup _ start.2 (start.1, cache) hstart_nodup
      · exact hstart_nodup
    have hgood : ∀ p ∈ after.1, p.2 ≠ "" ∧ GoodEntry cache net p := by
      intro p hp
      rcases hafter_spec p hp with hp1 | ⟨a, td, hrec, rfl, hsym, hdec⟩
      · obtain ⟨t, hrec, hval⟩ := hstart_spec p hp1
        have hmem := getTokens_spec cache addresses _ (getRecord_mem hrec)
        have hcm := getRecord_mem hmem
        have hq := hcache _ hcm
        refine ⟨?_, Or.inl ⟨t.decimals, hq.2, ?_⟩⟩
        · intro h0
          rw [hval] at h0
          rw [h0] at hq
          exact hq.1 rfl
        · rw [hval]
          exact hcm
      · have hfg := fetchTokensFromNetwork_spec net start.2 _ (getRecord_mem hrec)
        obtain ⟨sym, d, hnet, hva, htrim, hd⟩ := hfg
        refine ⟨hsym, Or.inr ⟨a, sym, d, rfl, hnet, ?_, htrim, hd⟩⟩
        rw [show td = TokenMetadata.mk (jsTrim sym) d from hva]
    constructor
    · intro p hp
      exact hgood p (sortTokens_mem baseTokens after.1 p hp)
    · exact sortTokens_split baseTokens after.1 hafter_nodup

/-- C9 witness: one cached token, one unresolvable address, a base-token
set not containing the symbol. -/
theorem resolve_only_good_entries_sorted_witness :
    (∀ p ∈ (resolveWithNetwork ["WETH"] [("0xt", ⟨"TKN", 18⟩)] (fun _ => none)
        ["0xT", "0xu"]).1,
       p.2 ≠ "" ∧ GoodEntry [("0xt", ⟨"TKN", 18⟩)] (fun _ => none) p) ∧
    (∃ xs ys, (resolveWithNetwork ["WETH"] [("0xt", ⟨"TKN", 18⟩)] (fun _ => none)
        ["0xT", "0xu"]).1 = xs ++ ys ∧
      (∀ p ∈ xs, (["WETH"] : List String).contains p.2 = false) ∧
      (∀ p ∈ ys, (["WETH"] : List String).contains p.2 = true)) :=
  resolve_only_good_entries_sorted ["WETH"] [("0xt", ⟨"TKN", 18⟩)] (fun _ => none)
    ["0xT", "0xu"] (by decide)

/-! C1 -/

/-- C1 counterexample: in the ERC20-transfer-to-watched scenario the
watched address has exactly one subscriber, whose watchlist entry was
initialized with `tx_in = false` — so for the incoming transaction
(`txOutgoing = false`) the direction gate rejects the delivery and
`massSend` performs zero sends, not one per subscriber. -/
theorem transfer_scenario_incoming_gate_blocks :
    getRecord ((getRecord scenarioWatchlist wLowerStr).getD []) "123@eth_spybot" =
      some ⟨"alice", false, true⟩ ∧
    (getWatchers ["eth_spybot"] scenarioWatchlist wLowerStr).length = 1 ∧
    (massSend ["eth_spybot"] (fun _ => 77)
        (getWatchers ["eth_spybot"] scenarioWatchlist wLowerStr) false).attempts = [] ∧
    (massSend ["eth_spybot"] (fun _ => 77)
        (getWatchers ["eth_spybot"] scenarioWatchlist wLowerStr) false).sent = [] := by
  decide

/-- C1 (amended): in the ERC20-transfer-to-watched scenario —
calldata `0xa9059cbb` + 32-byte zero-padded `W` + 32-byte amount
`100·10^18`, token decimals = 18 — the transfer-recipient extractor
returns `W` (checksum-cased), the fast decode resolves exactly one token
with amount `"100.00"`, the router matches exactly `W` (via the
calldata scan; the checksummed recipient misses the lower-cased
watchlist key), the transaction is incoming for `W`, and the processor
performs zero sends and zero edits because every watchlist entry is
initialized with `tx_in = false`. -/
theorem transfer_scenario_pipeline :
    extractTransferRecipient transferData =
      some "0x5aAeb6053F3E94C9b9A09f33669435E7Ef1BeAed" ∧
    "0x5aAeb6053F3E94C9b9A09f33669435E7Ef1BeAed" ≠ wLowerStr ∧
    (decodeFast scenarioBase scenarioCache (fun _ => none) [] ⟨"1.0", " "⟩
        (some tokenAddress) transferData (some 100)).1.interact =
      [(tokenAddress, "TKN")] ∧
    (decodeFast scenarioBase scenarioCache (fun _ => none) [] ⟨"1.0", " "⟩
        (some tokenAddress) transferData (some 100)).1.amount = some "100.00" ∧
    matchedAddresses scenarioWatchlist scenarioTx = [wLowerStr] ∧
    wLowerStr ≠ scenarioTx.fromAddr ∧
    (process scenarioEnv scenarioWatchlist [] wLowerStr scenarioTx).sendResult.attempts = [] ∧
    (process scenarioEnv scenarioWatchlist [] wLowerStr scenarioTx).sendResult.sent = [] ∧
    (process scenarioEnv scenarioWatchlist [] wLowerStr scenarioTx).edits = [] := by
  decide
